import Mathlib

/-!
Verification of the reconciliation engine of `anki_con`.

The Python sources are embedded shallowly:

* `parseModule.insert_card_id` (the list/index/id version of `src/parseModule.py`)
  becomes `insert_card_id`, a pure list splice;
* the id-insertion loop of `NoteSet.bulk_upload` in `src/noteModule.py` becomes
  `bulk_insert_loop`;
* the engine of `src/src/ankicli/noteModule2.py` becomes the functions in the
  `NoteSet2` section below: the pandas `DataFrame` is modelled as a list of
  `(index, Row)` pairs with stable indices, remote queries are fields of a
  `Remote` record, and the write actions issued against the server are recorded
  as a list of `Call`s.  Python code that can raise (positional assignment with
  a mismatched length, `[0]` on an empty list) is modelled with `Option`.
-/

/-- The `{Front, Back}` field payload of a note. -/
structure Fields where
  Front : String
  Back : String
deriving DecidableEq, Repr

instance : Inhabited Fields := ⟨⟨"", ""⟩⟩

/-- One line of the source document, abstracted just enough to talk about the
identifier marker (`<!--ID: n-->` / `^n`) that the parser recognises. -/
inductive Line where
  | content : String → Line
  | idMarker : Nat → Line
deriving DecidableEq, Repr

/-- Whether a line is an identifier marker line. -/
def Line.isIdMarker : Line → Bool
  | .idMarker _ => true
  | .content _ => false

/-- One row of the card table of `noteModule2.NoteSet.df`: the raw text lines,
the parsed flags and content, the optional remote id (pandas `NaN` becomes
`none`) and the note payload columns. -/
structure Row where
  text : List Line
  is_card : Bool
  front : Option String
  back : Option String
  id : Option Nat
  fields : Option Fields
  tags : List String
  deckName : String
  modelName : String
deriving DecidableEq, Repr

/-- The card table: a positionally stable pandas `DataFrame` is modelled as a
list of `(index, row)` pairs; the index is the pandas row label. -/
abbrev Table := List (Nat × Row)

/-- The payload sent for a note: the `[deckName, modelName, fields, tags]`
column projection used by `add_notes` and `find_error_notes`. -/
structure NotePayload where
  deckName : String
  modelName : String
  fields : Option Fields
  tags : List String
deriving DecidableEq, Repr

/-- Project a row onto the payload columns. -/
def notePayload (row : Row) : NotePayload :=
  { deckName := row.deckName, modelName := row.modelName,
    fields := row.fields, tags := row.tags }

/-- Write actions the engine issues against the anki server. -/
inductive Call where
  | createDeck : String → Call
  | addNotes : List NotePayload → Call
  | updateNote : NotePayload → Nat → Call
  | changeDeck : List Nat → String → Call
deriving DecidableEq, Repr

/-- Whether a call is a batch `addNotes` creation call. -/
def Call.isAddNotes : Call → Bool
  | .addNotes _ => true
  | _ => false

/-- Whether a call is an `updateNote` call. -/
def Call.isUpdateNote : Call → Bool
  | .updateNote _ _ => true
  | _ => false

/-- The read-only side of the anki server, one field per query action used by
the engine.  Every batch query is order-preserving, one entry per input; the
engine itself re-checks the lengths where pandas would raise on a mismatch. -/
structure Remote where
  deck_exists : String → Bool
  canAddNotesWithErrorDetail : List NotePayload → List (Option String)
  notesInfo : List Nat → List (Option Fields)
  findNotes : String → List Nat
  getDecks : List Nat → List (String × List Nat)
  addNotesResult : List NotePayload → List (Option Nat)

/-! ## The old module: `parseModule.insert_card_id` and the `bulk_upload` loop -/

/-- `parseModule.id_format = "^{}\n"` applied to an id. -/
def id_format (id : Nat) : String := "^" ++ toString id ++ "\n"

/-- `parseModule.insert_card_id(lines, index, id)`: `lines.insert(index, id_line)`.
Python's `list.insert` clamps an out-of-range index to the end, which the
`take`/`drop` splice reproduces. -/
def insert_card_id (lines : List String) (index : Nat) (id : Nat) : List String :=
  lines.take index ++ id_format id :: lines.drop index

/-- The id-insertion loop of `noteModule.NoteSet.bulk_upload`: for the `i`-th
new note (0-based) it executes `notes_last_lines[i] += i` and then inserts the
id line at that shifted offset.  The pairs are `(original offset, assigned id)`
and `i` is the loop counter. -/
def bulk_insert_loop : List String → List (Nat × Nat) → Nat → List String
  | lines, [], _ => lines
  | lines, p :: rest, i => bulk_insert_loop (insert_card_id lines (p.1 + i) p.2) rest (i + 1)

/-! ## The engine: `src/ankicli/noteModule2.py` -/

/-- Modelled from the spec: the row-level `parseModule.insert_card_id` of the
`ankicli` package (that parser module is not among the sources; only this
engine-side caller is).  Per the spec, inserting puts exactly one identifier
line after the row's content, and a row with a null id has its identifier
marker stripped from its source lines. -/
def insert_card_id_row (row : Row) : List Line :=
  let stripped := row.text.filter (fun l => !l.isIdMarker)
  match row.id with
  | some n => stripped ++ [Line.idMarker n]
  | none => stripped

/-- The new-note filter `(df["is_card"] == True) & (df["id"].isna())`. -/
def isNewCard (row : Row) : Bool := row.is_card && row.id.isNone

/-- The existing-note filter `(df["is_card"] == True) & (~df["id"].isna())`. -/
def isExistingCard (row : Row) : Bool := row.is_card && row.id.isSome

/-- Look a row up by its pandas index. -/
def lookupTable (t : Table) (i : Nat) : Option Row :=
  (t.find? (fun x => x.1 == i)).map (fun x => x.2)

/-- `DataFrame.update` on one row: every plain column is overwritten by the
sub-frame's value; a nullable column is overwritten only when the sub-frame's
value is not `NaN` (pandas skips `NaN` values on update). -/
def mergeRow (main sub : Row) : Row :=
  { text := sub.text, is_card := sub.is_card,
    front := match sub.front with | some v => some v | none => main.front,
    back := match sub.back with | some v => some v | none => main.back,
    id := match sub.id with | some v => some v | none => main.id,
    fields := match sub.fields with | some v => some v | none => main.fields,
    tags := sub.tags, deckName := sub.deckName, modelName := sub.modelName }

/-- `main.update(sub)`: rows of `main` whose index appears in `sub` are merged
with the matching sub row; all other rows are untouched. -/
def tableUpdate (main sub : Table) : Table :=
  main.map (fun x =>
    match lookupTable sub x.1 with
    | some srow => (x.1, mergeRow x.2 srow)
    | none => x)

/-- `main.loc[sub.index] = sub`: whole-row assignment by index (used for
deleted-note repair, where the `NaN` id must overwrite). -/
def assignRows (main sub : Table) : Table :=
  main.map (fun x =>
    match lookupTable sub x.1 with
    | some srow => (x.1, srow)
    | none => x)

/-- Sequence a list of optional values; `none` as soon as one entry is `none`
(a Python list comprehension raising on its first failing element). -/
def optionList : List (Option α) → Option (List α)
  | [] => some []
  | none :: _ => none
  | some v :: xs =>
    match optionList xs with
    | some vs => some (v :: vs)
    | none => none

/-- `NoteSet.__init__` state: the deck, the common tags and the card table. -/
structure NoteSet where
  deckName : String
  tags : List String
  df : Table
deriving DecidableEq, Repr

/-- `NoteSet.check_deck`: create the deck when it does not exist. -/
def check_deck (r : Remote) (ns : NoteSet) : List Call :=
  if r.deck_exists ns.deckName then [] else [Call.createDeck ns.deckName]

/-- `NoteSet.add_notes`: build the payload list and issue the batch `addNotes`
call, returning the per-row result list and the recorded call. -/
def add_notes (r : Remote) (df : Table) : List (Option Nat) × List Call :=
  let df_l := df.map (fun x => notePayload x.2)
  (r.addNotesResult df_l, [Call.addNotes df_l])

/-- `NoteSet.upload_new_notes`: re-filter the new card rows, batch-create them,
assign the returned ids positionally (`df["id"] = df_ids`), splice each id into
the row text, and merge the rows back into the table.  `none` models the
pandas error raised when the result list length does not match the frame. -/
def upload_new_notes (r : Remote) (ns : NoteSet) : Option (NoteSet × List Call) :=
  let df := ns.df.filter (fun x => isNewCard x.2)
  if df.isEmpty then some (ns, [])
  else
    let res := add_notes r df
    let df_ids := res.1
    if df_ids.length = df.length then
      let df1 := (df.zip df_ids).map (fun p => (p.1.1, { p.1.2 with id := p.2 }))
      let df2 := df1.map (fun x =>
        (x.1, { x.2 with text := insert_card_id_row x.2 }))
      some ({ ns with df := tableUpdate ns.df df2 }, res.2)
    else none

/-- A new row after the upload pass: the result entry (an id or `none`) is
written into the id column and spliced into the text. -/
def uploadRow (row : Row) (oid : Option Nat) : Row :=
  { row with id := oid, text := insert_card_id_row { row with id := oid } }

/-- `NoteSet.find_error_notes`: query `canAddNotesWithErrorDetail` over the
payloads, attach the error column positionally, and `dropna` on it.  `none`
models the pandas error on a result list of the wrong length. -/
def find_error_notes (r : Remote) (df : Table) : Option (List (Nat × Row × String)) :=
  let e_list := r.canAddNotesWithErrorDetail (df.map (fun x => notePayload x.2))
  if e_list.length = df.length then
    some ((df.zip e_list).filterMap (fun p =>
      match p.2 with
      | some e => some (p.1.1, p.1.2, e)
      | none => none))
  else none

/-- The exact duplicate-content error string matched by `repair_duplicate_notes`. -/
def dupError : String := "cannot create note because it is a duplicate"

/-- The `findNotes` query used for a duplicate row: the row's front text. -/
def frontQuery (row : Row) : String := row.front.getD ""

/-- A duplicate row after repair: the recovered id is adopted and spliced into
the row's text. -/
def dupRepairRow (row : Row) (n : Nat) : Row :=
  { row with id := some n, text := insert_card_id_row { row with id := some n } }

/-- `NoteSet.repair_duplicate_notes`: keep the rows whose error is exactly
`dupError`, look each row's front text up with `findNotes` and take `[0]` of
the result (`none` models the `IndexError` on an empty result), then adopt the
ids positionally and drop the error column. -/
def repair_duplicate_notes (r : Remote) (e_df : List (Nat × Row × String)) :
    Option (List (Nat × Row)) :=
  let dup_df := e_df.filter (fun x => x.2.2 == dupError)
  if dup_df.isEmpty then some []
  else
    match optionList (dup_df.map (fun x => (r.findNotes (frontQuery x.2.1)).head?)) with
    | none => none
    | some dup_ids =>
      some ((dup_df.zip dup_ids).map (fun p => (p.1.1, dupRepairRow p.1.2.1 p.2)))

/-- The duplicate-repair traversal fused into one recursion: for each
duplicate row in order, take the head of its `findNotes` result and build the
repaired row; fail as soon as one search comes back empty.  Extensionally
equal to the two-phase `repair_duplicate_notes` body (proved below). -/
def repairDupAux (r : Remote) : List (Nat × Row × String) → Option (List (Nat × Row))
  | [] => some []
  | x :: xs =>
    match (r.findNotes (frontQuery x.2.1)).head?, repairDupAux r xs with
    | some n, some rest => some ((x.1, dupRepairRow x.2.1 n) :: rest)
    | _, _ => none

/-- `NoteSet.repair_errors`: find the error rows, repair the duplicates, merge
the repaired rows into the frame and drop them from the error frame. -/
def repair_errors (r : Remote) (df : Table) :
    Option (Table × List (Nat × Row × String)) :=
  match find_error_notes r df with
  | none => none
  | some e_df =>
    match repair_duplicate_notes r e_df with
    | none => none
    | some dup_df =>
      some (tableUpdate df dup_df,
        e_df.filter (fun x => !(dup_df.any (fun y => y.1 == x.1))))

/-- `NoteSet.find_deleted_notes`: zip the rows with the queried notes; rows
with an empty/absent result are the deleted ones.  `none` models the pandas
error when the query result length does not match the frame. -/
def find_deleted_notes (df : Table) (queried : List (Option Fields)) :
    Option (Table × Table) :=
  if queried.length = df.length then
    some ((df.zip queried).filterMap (fun p => if p.2.isSome then some p.1 else none),
          (df.zip queried).filterMap (fun p => if p.2.isNone then some p.1 else none))
  else none

/-- A deleted row after repair: the id is cleared to `NaN` and the identifier
marker is stripped from the text. -/
def clearIdRow (row : Row) : Row :=
  { row with id := none, text := insert_card_id_row { row with id := none } }

/-- `NoteSet.repair_deleted_notes`: clear every id and strip the marker. -/
def repair_deleted_notes (deleted : Table) : Table :=
  deleted.map (fun x => (x.1, clearIdRow x.2))

/-- `NoteSet.find_updatable_notes`: build the `{Front, Back}` list from the
non-empty query results only, re-index it over the frame (`none` models the
pandas error when the lengths differ), and split the frame on structural
equality of the local and queried fields. -/
def find_updatable_notes (df : Table) (queried : List (Option Fields)) :
    Option (Table × Table) :=
  let queried_fields := queried.filterMap id
  if queried_fields.length = df.length then
    some ((df.zip queried_fields).filterMap
            (fun p => if p.1.2.fields = some p.2 then none else some p.1),
          (df.zip queried_fields).filterMap
            (fun p => if p.1.2.fields = some p.2 then some p.1 else none))
  else none

/-- `NoteSet.adjust_notes_deck`: gather the ids, read the declared deck off the
first row, query `getDecks`, extend the wrong-deck list with the ids under
every key different from the declared deck, and issue one `changeDeck` call. -/
def adjust_notes_deck (r : Remote) (df : Table) : List Call :=
  if df.isEmpty then []
  else
    let df_ids := df.map (fun x => x.2.id.getD 0)
    let deck_name := (df.head?.map (fun x => x.2.deckName)).getD ""
    let deck_dict := r.getDecks df_ids
    let wrong := deck_dict.foldl
      (fun acc kv => if kv.1 ≠ deck_name then acc ++ kv.2 else acc) []
    [Call.changeDeck wrong deck_name]

/-- `NoteSet.write_to_error_log`: the entries appended to the error log, each
carrying the full row content and the verbatim error message. -/
def write_to_error_log (e_df : List (Nat × Row × String)) : List (Nat × Row × String) :=
  e_df

/-- `NoteSet.check_notes`: validate and repair the new rows, log and drop the
unrepaired error rows, then detect and repair deleted notes among the existing
rows and adjust their deck.  Returns the updated note set, the issued write
calls and the error-log entries. -/
def check_notes (r : Remote) (ns : NoteSet) :
    Option (NoteSet × List Call × List (Nat × Row × String)) :=
  let df0 := ns.df.filter (fun x => isNewCard x.2)
  match repair_errors r df0 with
  | none => none
  | some (df1, e_df) =>
    let log := if e_df.isEmpty then [] else write_to_error_log e_df
    let df2 := if e_df.isEmpty then df1
      else df1.filter (fun x => !(e_df.any (fun y => y.1 == x.1)))
    let main1 := tableUpdate ns.df df2
    let main2 := main1.filter (fun x => !(e_df.any (fun y => y.1 == x.1)))
    let dfe := main2.filter (fun x => isExistingCard x.2)
    let queried := r.notesInfo (dfe.map (fun x => x.2.id.getD 0))
    match find_deleted_notes dfe queried with
    | none => none
    | some (alive, deleted) =>
      let main3 := if deleted.isEmpty then main2
        else assignRows main2 (repair_deleted_notes deleted)
      some ({ ns with df := main3 }, adjust_notes_deck r alive, log)

/-- `NoteSet.update_existing_notes`: filter the existing card rows, query their
current fields, split off the updatable rows and issue one `updateNote` call
per updatable row. -/
def update_existing_notes (r : Remote) (ns : NoteSet) : Option (List Call) :=
  let df := ns.df.filter (fun x => isExistingCard x.2)
  if df.isEmpty then some []
  else
    let queried := r.notesInfo (df.map (fun x => x.2.id.getD 0))
    match find_updatable_notes df queried with
    | none => none
    | some (updatable, _up_to_date) =>
      some (updatable.map (fun x => Call.updateNote (notePayload x.2) (x.2.id.getD 0)))

/-- One reconciliation run in the order fixed by the spec:
`check_deck` → `check_notes` → `upload_new_notes` → `update_existing_notes`. -/
def run_reconciliation (r : Remote) (ns : NoteSet) :
    Option (NoteSet × List Call × List (Nat × Row × String)) :=
  let c0 := check_deck r ns
  match check_notes r ns with
  | none => none
  | some (ns1, c1, log) =>
    match upload_new_notes r ns1 with
    | none => none
    | some (ns2, c2) =>
      match update_existing_notes r ns2 with
      | none => none
      | some c3 => some (ns2, c0 ++ c1 ++ c2 ++ c3, log)

/-! ## Concrete fixtures used to instantiate the theorems -/

/-- A new card row: no remote id yet. -/
def fxRowNew : Row :=
  { text := [Line.content "q1"], is_card := true,
    front := some "Q1", back := some "A1", id := none,
    fields := some { Front := "Q1", Back := "A1" },
    tags := ["t"], deckName := "D", modelName := "Basic" }

/-- An existing card row: remote id `5`, marker line present. -/
def fxRowOld : Row :=
  { text := [Line.content "q2", Line.idMarker 5], is_card := true,
    front := some "Q2", back := some "A2", id := some 5,
    fields := some { Front := "Q2", Back := "A2" },
    tags := ["t"], deckName := "D", modelName := "Basic" }

/-- The synthetic frontmatter row: not a card. -/
def fxRowFm : Row :=
  { text := [Line.content "---"], is_card := false,
    front := none, back := none, id := none, fields := none,
    tags := ["t"], deckName := "D", modelName := "Basic" }

/-- A remote in full agreement with `fxRowOld`: the deck exists, validation
reports no error, and the stored fields equal the local ones. -/
def fxRemote : Remote :=
  { deck_exists := fun _ => true,
    canAddNotesWithErrorDetail := fun l => l.map (fun _ => none),
    notesInfo := fun ids => ids.map (fun _ => some { Front := "Q2", Back := "A2" }),
    findNotes := fun _ => [99],
    getDecks := fun ids => [("D", ids)],
    addNotesResult := fun l => l.map (fun _ => some 7) }

/-- A remote whose batch creation returns no id for any submitted note. -/
def fxRemoteNoneAdd : Remote :=
  { fxRemote with addNotesResult := fun l => l.map (fun _ => none) }

/-- A remote that reports the duplicate-content error for every candidate. -/
def fxRemoteDup : Remote :=
  { fxRemote with canAddNotesWithErrorDetail := fun l => l.map (fun _ => some dupError) }

/-- A remote that reports a non-duplicate validation error for every candidate. -/
def fxRemoteBad : Remote :=
  { fxRemote with
    canAddNotesWithErrorDetail := fun l => l.map (fun _ => some "empty note") }

/-- A remote on which every queried note comes back empty (deleted upstream),
and every duplicate search comes back empty as well. -/
def fxRemoteGone : Remote :=
  { fxRemote with
    notesInfo := fun ids => ids.map (fun _ => none),
    findNotes := fun _ => [] }

/-- A remote whose stored fields drifted away from the local ones. -/
def fxRemoteDrift : Remote :=
  { fxRemote with
    notesInfo := fun ids => ids.map (fun _ => some { Front := "Q2", Back := "ZZ" }) }

/-- A remote that reports the existing card under a foreign deck. -/
def fxRemoteWrongDeck : Remote :=
  { fxRemote with getDecks := fun ids => [("E", ids)] }

/-- A fully reconciled note set: frontmatter plus one existing card. -/
def fxNsDone : NoteSet :=
  { deckName := "D", tags := ["t"], df := [(0, fxRowFm), (1, fxRowOld)] }

/-- A note set with one new and one existing card. -/
def fxNs : NoteSet :=
  { deckName := "D", tags := ["t"], df := [(0, fxRowFm), (1, fxRowNew), (2, fxRowOld)] }

/-! ## Lemmas about identifier insertion (old module) -/

/-- Each `insert_card_id` splice adds exactly one line, at every index. -/
theorem insert_card_id_length (lines : List String) (index id : Nat) :
    (insert_card_id lines index id).length = lines.length + 1 := by
  simp [insert_card_id]
  omega

/-- Lines strictly before an in-range insertion point are untouched. -/
theorem insert_card_id_getElem_of_lt (lines : List String) (p q id : Nat)
    (hq : q < p) (hp : p ≤ lines.length) :
    (insert_card_id lines p id)[q]? = lines[q]? := by
  have h1 : q < (List.take p lines).length := by
    rw [List.length_take]; omega
  rw [insert_card_id, List.getElem?_append, if_pos h1, List.getElem?_take, if_pos hq]

/-- The inserted identifier line sits exactly at the insertion point. -/
theorem insert_card_id_getElem_self (lines : List String) (p id : Nat)
    (hp : p ≤ lines.length) :
    (insert_card_id lines p id)[p]? = some (id_format id) := by
  have h1 : (List.take p lines).length = p := by
    rw [List.length_take]; omega
  rw [insert_card_id, List.getElem?_append_right (by omega), h1]
  simp

/-- The `bulk_upload` insertion loop leaves every position strictly below all
remaining (shifted) insertion points unchanged. -/
theorem bulk_insert_loop_getElem_of_lt (ps : List (Nat × Nat)) :
    ∀ (lines : List String) (i q : Nat),
      (∀ p ∈ ps, q < p.1 + i ∧ p.1 + i ≤ lines.length) →
      (bulk_insert_loop lines ps i)[q]? = lines[q]? := by
  induction ps with
  | nil => intro lines i q _; rfl
  | cons p rest ih =>
    intro lines i q h
    have hp := h p (List.mem_cons_self p rest)
    rw [bulk_insert_loop, ih _ _ _ ?_]
    · exact insert_card_id_getElem_of_lt lines (p.1 + i) q p.2 hp.1 hp.2
    · intro x hx
      have hxx := h x (List.mem_cons_of_mem p hx)
      refine ⟨by omega, ?_⟩
      rw [insert_card_id_length]
      omega

/-- After the whole `bulk_upload` loop, the identifier of the `k`-th pair
(0-based) ends up exactly at position `o_k + i + k`. -/
theorem bulk_insert_loop_spec (ps : List (Nat × Nat)) :
    ∀ (lines : List String) (i : Nat),
      (ps.map Prod.fst).Pairwise (· < ·) →
      (∀ p ∈ ps, p.1 + i ≤ lines.length) →
      ∀ k, (hk : k < ps.length) →
        (bulk_insert_loop lines ps i)[(ps.get ⟨k, hk⟩).1 + i + k]? =
          some (id_format (ps.get ⟨k, hk⟩).2) := by
  induction ps with
  | nil =>
    intro lines i _ _ k hk
    exact absurd hk (by simp)
  | cons p rest ih =>
    intro lines i hsort hbound k hk
    have hsort1 : ∀ x ∈ rest, p.1 < x.1 := by
      intro x hx
      exact (List.pairwise_cons.mp hsort).1 x.1 (List.mem_map_of_mem Prod.fst hx)
    have hb := hbound p (List.mem_cons_self p rest)
    match k with
    | 0 =>
      show (bulk_insert_loop lines (p :: rest) i)[p.1 + i + 0]? = some (id_format p.2)
      rw [bulk_insert_loop, bulk_insert_loop_getElem_of_lt rest _ _ _ ?_]
      · simpa using insert_card_id_getElem_self lines (p.1 + i) p.2 hb
      · intro x hx
        refine ⟨by have := hsort1 x hx; omega, ?_⟩
        rw [insert_card_id_length]
        have := hbound x (List.mem_cons_of_mem p hx)
        omega
    | k + 1 =>
      have hk2 : k < rest.length := by simpa using hk
      show (bulk_insert_loop lines (p :: rest) i)[(rest.get ⟨k, hk2⟩).1 + i + (k + 1)]?
        = some (id_format (rest.get ⟨k, hk2⟩).2)
      have := ih (insert_card_id lines (p.1 + i) p.2) (i + 1)
        (List.pairwise_cons.mp (by simpa using hsort)).2 ?_ k hk2
      · rw [bulk_insert_loop]
        have harith : (rest.get ⟨k, hk2⟩).1 + (i + 1) + k
            = (rest.get ⟨k, hk2⟩).1 + i + (k + 1) := by omega
        rw [harith] at this
        exact this
      · intro x hx
        rw [insert_card_id_length]
        have := hbound x (List.mem_cons_of_mem p hx)
        omega

/-- **C5** Offset correctness of identifier insertion: for `N` new rows whose
identifier lines must be inserted at original line offsets
`o1 < o2 < ... < oN`, the `bulk_upload` loop inserts the `i`-th identifier
(1-based) at position `o_i + (i-1)`, so after the run the identifier line of
the `k`-th row (0-based) sits exactly at `o_k + k`, and each insertion adds
exactly one line. -/
theorem C5_offset_correctness (lines : List String) (offsets ids : List Nat)
    (hlen : ids.length = offsets.length)
    (hsort : offsets.Pairwise (· < ·))
    (hbound : ∀ o ∈ offsets, o ≤ lines.length) :
    (∀ (ls : List String) (idx v : Nat),
      (insert_card_id ls idx v).length = ls.length + 1) ∧
    (∀ k, (hk : k < offsets.length) →
      (bulk_insert_loop lines (offsets.zip ids) 0)[offsets.get ⟨k, hk⟩ + k]? =
        some (id_format (ids.get ⟨k, by omega⟩))) := by
  refine ⟨insert_card_id_length, ?_⟩
  intro k hk
  have hzlen : (offsets.zip ids).length = offsets.length := by
    rw [List.length_zip]; omega
  have hk2 : k < (offsets.zip ids).length := by omega
  have hz := bulk_insert_loop_spec (offsets.zip ids) lines 0 ?_ ?_ k hk2
  · have hget : (offsets.zip ids).get ⟨k, hk2⟩
        = (offsets.get ⟨k, hk⟩, ids.get ⟨k, by omega⟩) := by
      simp [List.get_eq_getElem, List.getElem_zip]
    rw [hget] at hz
    simpa using hz
  · rw [List.map_fst_zip offsets ids (by omega)]
    exact hsort
  · intro p hp
    rcases p with ⟨o, v⟩
    have := (List.of_mem_zip hp).1
    simpa using hbound o this

/-- Witness for C5 at a concrete document: three lines, two new rows at
offsets 1 and 2; the identifiers land at positions 1 and 3. -/
theorem C5_offset_correctness_witness :
    (bulk_insert_loop ["a", "b", "c"] ([1, 2].zip [10, 20]) 0)[2 + 1]? =
      some (id_format 20) := by
  have h := C5_offset_correctness ["a", "b", "c"] [1, 2] [10, 20]
    (by decide) (by decide) (by decide)
  exact h.2 1 (by decide)

/-! ## General table lemmas -/

/-- `filterMap` by a function that succeeds pointwise is a `map`. -/
theorem filterMap_eq_map_of {α β : Type} (l : List α) (f : α → Option β) (g : α → β)
    (h : ∀ x ∈ l, f x = some (g x)) : l.filterMap f = l.map g := by
  induction l with
  | nil => rfl
  | cons a l ih =>
    rw [List.filterMap_cons, h a (List.mem_cons_self a l), List.map_cons,
      ih (fun x hx => h x (List.mem_cons_of_mem a hx))]

/-- Updating with an empty sub-frame changes nothing. -/
theorem tableUpdate_nil (t : Table) : tableUpdate t [] = t := by
  simp [tableUpdate, lookupTable]

/-- `adjust_notes_deck` issues only `changeDeck` calls. -/
theorem adjust_notes_deck_calls (r : Remote) (df : Table) :
    ∀ c ∈ adjust_notes_deck r df, c.isAddNotes = false ∧ c.isUpdateNote = false := by
  intro c hc
  unfold adjust_notes_deck at hc
  by_cases h : df.isEmpty
  · rw [if_pos h] at hc
    simp at hc
  · rw [if_neg h] at hc
    simp only [List.mem_singleton] at hc
    subst hc
    exact ⟨rfl, rfl⟩

/-- With card rows all carrying an id, the new-note filter is empty. -/
theorem filter_new_eq_nil (t : Table)
    (h : ∀ x ∈ t, x.2.is_card = true → x.2.id.isSome = true) :
    t.filter (fun x => isNewCard x.2) = [] := by
  rw [List.filter_eq_nil_iff]
  intro a ha
  simp only [isNewCard, Bool.and_eq_true, not_and]
  intro hcard
  have hs := h a ha hcard
  simp only [Option.isNone_iff_eq_none]
  intro hnone
  rw [hnone] at hs
  simp at hs

/-- On an empty frame, `repair_errors` finds nothing and repairs nothing. -/
theorem repair_errors_nil (r : Remote) (hc : r.canAddNotesWithErrorDetail [] = []) :
    repair_errors r [] = some ([], []) := by
  unfold repair_errors find_error_notes repair_duplicate_notes
  simp [hc, tableUpdate_nil]

/-- When every query result is present, no note is classified as deleted. -/
theorem find_deleted_all_some (df : Table) (q : List (Option Fields))
    (hq : q.length = df.length) (hall : ∀ x ∈ q, x.isSome = true) :
    find_deleted_notes df q = some (df, []) := by
  unfold find_deleted_notes
  rw [if_pos hq]
  have h1 : (df.zip q).filterMap (fun p => if p.2.isSome then some p.1 else none)
      = (df.zip q).map Prod.fst := by
    refine filterMap_eq_map_of _ _ _ ?_
    intro p hp
    rw [if_pos (hall p.2 (List.of_mem_zip hp).2)]
  have h2 : (df.zip q).filterMap
      (fun p => if p.2.isNone then some p.1 else none) = [] := by
    rw [List.filterMap_eq_nil_iff]
    intro p hp
    have hs := hall p.2 (List.of_mem_zip hp).2
    rw [if_neg]
    simp only [Option.isNone_iff_eq_none]
    intro hnone
    rw [hnone] at hs
    simp at hs
  rw [h1, h2, List.map_fst_zip df q (by omega)]

/-- When the queried fields coincide with the local fields, every row is
classified up to date. -/
theorem find_updatable_self (df : Table)
    (hf : ∀ x ∈ df, x.2.fields.isSome = true) :
    find_updatable_notes df (df.map (fun x => x.2.fields)) = some ([], df) := by
  have hpt : ∀ x ∈ df, x.2.fields = some (x.2.fields.getD default) := by
    intro x hx
    have := hf x hx
    cases h : x.2.fields with
    | none => rw [h] at this; simp at this
    | some v => simp
  have hq : (df.map (fun x => x.2.fields)).filterMap id
      = df.map (fun x => x.2.fields.getD default) := by
    rw [List.filterMap_map]
    exact filterMap_eq_map_of _ _ _ (fun x hx => hpt x hx)
  unfold find_updatable_notes
  rw [hq]
  rw [if_pos (by simp)]
  have hzip : df.zip (df.map (fun x => x.2.fields.getD default))
      = df.map (fun x => (x, x.2.fields.getD default)) := by
    have := List.zip_map' (fun x : Nat × Row => x) (fun x : Nat × Row => x.2.fields.getD default) df
    simpa using this
  rw [hzip]
  have h1 : (df.map (fun x => (x, x.2.fields.getD default))).filterMap
      (fun p => if p.1.2.fields = some p.2 then none else some p.1) = [] := by
    rw [List.filterMap_map, List.filterMap_eq_nil_iff]
    intro x hx
    simp only [Function.comp_apply]
    rw [if_pos (hpt x hx)]
  have h2 : (df.map (fun x => (x, x.2.fields.getD default))).filterMap
      (fun p => if p.1.2.fields = some p.2 then some p.1 else none) = df := by
    rw [List.filterMap_map]
    have := filterMap_eq_map_of df
      ((fun p : (Nat × Row) × Fields => if p.1.2.fields = some p.2 then some p.1 else none)
        ∘ (fun x => (x, x.2.fields.getD default)))
      (fun x => x) ?_
    · rw [this, List.map_id']
    · intro x hx
      simp only [Function.comp_apply]
      rw [if_pos (hpt x hx)]
  rw [h1, h2]

/-! ## Idempotence of a reconciliation run -/

/-- A second run's `check_notes` is a no-op on the table when every card row
has a valid id and the remote fields match the local ones. -/
theorem check_notes_noop (r : Remote) (ns : NoteSet)
    (hc : r.canAddNotesWithErrorDetail [] = [])
    (hcards : ∀ x ∈ ns.df, x.2.is_card = true → x.2.id.isSome = true)
    (hfields : ∀ x ∈ ns.df.filter (fun x => isExistingCard x.2), x.2.fields.isSome = true)
    (hremote : r.notesInfo ((ns.df.filter (fun x => isExistingCard x.2)).map
          (fun x => x.2.id.getD 0))
        = (ns.df.filter (fun x => isExistingCard x.2)).map (fun x => x.2.fields)) :
    check_notes r ns
      = some (ns, adjust_notes_deck r (ns.df.filter (fun x => isExistingCard x.2)), []) := by
  have h0 : ns.df.filter (fun x => isNewCard x.2) = [] := filter_new_eq_nil ns.df hcards
  have hsome : ∀ x ∈ r.notesInfo ((ns.df.filter (fun x => isExistingCard x.2)).map
      (fun x => x.2.id.getD 0)), x.isSome = true := by
    rw [hremote]
    intro x hx
    rcases List.mem_map.mp hx with ⟨y, hy, hxy⟩
    rw [← hxy]
    exact hfields y hy
  have hdel := find_deleted_all_some (ns.df.filter (fun x => isExistingCard x.2))
    (r.notesInfo ((ns.df.filter (fun x => isExistingCard x.2)).map (fun x => x.2.id.getD 0)))
    (by rw [hremote]; simp) hsome
  unfold check_notes
  rw [h0]
  simp only [repair_errors_nil r hc]
  simp only [List.isEmpty_nil, if_true, tableUpdate_nil, List.any_nil,
    Bool.not_false, List.filter_true]
  simp only [hdel]
  simp only [List.isEmpty_nil, if_true]

/-- With no new card rows, `upload_new_notes` issues no call and leaves the
note set unchanged. -/
theorem upload_new_notes_noop (r : Remote) (ns : NoteSet)
    (hcards : ∀ x ∈ ns.df, x.2.is_card = true → x.2.id.isSome = true) :
    upload_new_notes r ns = some (ns, []) := by
  unfold upload_new_notes
  rw [filter_new_eq_nil ns.df hcards]
  simp

/-- With the remote fields equal to the local fields, `update_existing_notes`
issues no call. -/
theorem update_existing_notes_noop (r : Remote) (ns : NoteSet)
    (hfields : ∀ x ∈ ns.df.filter (fun x => isExistingCard x.2), x.2.fields.isSome = true)
    (hremote : r.notesInfo ((ns.df.filter (fun x => isExistingCard x.2)).map
          (fun x => x.2.id.getD 0))
        = (ns.df.filter (fun x => isExistingCard x.2)).map (fun x => x.2.fields)) :
    update_existing_notes r ns = some [] := by
  unfold update_existing_notes
  by_cases hE : (ns.df.filter (fun x => isExistingCard x.2)).isEmpty
  · rw [if_pos hE]
  · rw [if_neg hE]
    simp only [hremote, find_updatable_self _ hfields]
    simp

/-- **C1** Idempotence of a reconciliation run: when every card row of the
document carries a remote id whose remote fields equal the local fields, the
deck exists, and the remote respects the empty-batch contract, running the
pipeline again issues no `addNotes` call and no `updateNote` call, the error
log stays empty, and every row (its remote id and fields included) is
unchanged. -/
theorem C1_idempotence (r : Remote) (ns : NoteSet)
    (hdeck : r.deck_exists ns.deckName = true)
    (hc : r.canAddNotesWithErrorDetail [] = [])
    (hcards : ∀ x ∈ ns.df, x.2.is_card = true → x.2.id.isSome = true)
    (hfields : ∀ x ∈ ns.df.filter (fun x => isExistingCard x.2), x.2.fields.isSome = true)
    (hremote : r.notesInfo ((ns.df.filter (fun x => isExistingCard x.2)).map
          (fun x => x.2.id.getD 0))
        = (ns.df.filter (fun x => isExistingCard x.2)).map (fun x => x.2.fields)) :
    ∃ calls, run_reconciliation r ns = some (ns, calls, []) ∧
      ∀ c ∈ calls, c.isAddNotes = false ∧ c.isUpdateNote = false := by
  refine ⟨adjust_notes_deck r (ns.df.filter (fun x => isExistingCard x.2)), ?_, ?_⟩
  · unfold run_reconciliation check_deck
    rw [if_pos hdeck]
    simp only [check_notes_noop r ns hc hcards hfields hremote,
      upload_new_notes_noop r ns hcards,
      update_existing_notes_noop r ns hfields hremote]
    simp
  · exact adjust_notes_deck_calls r _

/-- Witness for C1: a reconciled document with one existing card; the second
run issues no creation and no update call and leaves the table unchanged. -/
theorem C1_idempotence_witness :
    ∃ calls, run_reconciliation fxRemote fxNsDone = some (fxNsDone, calls, []) ∧
      ∀ c ∈ calls, c.isAddNotes = false ∧ c.isUpdateNote = false :=
  C1_idempotence fxRemote fxNsDone rfl rfl
    (by decide) (by decide) (by decide)

/-! ## Lookup and update lemmas -/

/-- Lookup on a cons cell. -/
theorem lookupTable_cons (a : Nat × Row) (t : Table) (i : Nat) :
    lookupTable (a :: t) i = if a.1 = i then some a.2 else lookupTable t i := by
  by_cases h : a.1 = i
  · rw [if_pos h, lookupTable, List.find?_cons_of_pos _ (by simpa using h)]
    rfl
  · rw [if_neg h, lookupTable, List.find?_cons_of_neg _ (by simpa using h), lookupTable]

/-- `tableUpdate` on a cons cell. -/
theorem tableUpdate_cons (a : Nat × Row) (t sub : Table) :
    tableUpdate (a :: t) sub =
      (match lookupTable sub a.1 with
       | some srow => (a.1, mergeRow a.2 srow)
       | none => a) :: tableUpdate t sub := rfl

/-- In a table with distinct indices, lookup finds a member row. -/
theorem lookupTable_of_mem_nodup (t : Table) (i : Nat) (row : Row)
    (hnd : (t.map Prod.fst).Nodup) (hmem : (i, row) ∈ t) :
    lookupTable t i = some row := by
  induction t with
  | nil => cases hmem
  | cons a rest ih =>
    rw [List.map_cons, List.nodup_cons] at hnd
    rcases List.mem_cons.mp hmem with h | h
    · rw [← h, lookupTable_cons, if_pos rfl]
    · have hne : a.1 ≠ i := by
        intro he
        exact hnd.1 (he ▸ List.mem_map_of_mem Prod.fst h)
      rw [lookupTable_cons, if_neg hne]
      exact ih hnd.2 h

/-- Lookup at an index that occurs nowhere in the table. -/
theorem lookupTable_eq_none (t : Table) (i : Nat)
    (h : ∀ x ∈ t, x.1 ≠ i) : lookupTable t i = none := by
  rw [lookupTable, List.find?_eq_none.mpr, Option.map_none']
  intro x hx
  simpa using h x hx

/-- Lookup after a `DataFrame.update`. -/
theorem lookupTable_tableUpdate (main sub : Table) (j : Nat) :
    lookupTable (tableUpdate main sub) j =
      match lookupTable main j with
      | none => none
      | some row =>
        match lookupTable sub j with
        | none => some row
        | some srow => some (mergeRow row srow) := by
  induction main with
  | nil => rfl
  | cons a rest ih =>
    rw [tableUpdate_cons]
    rcases hs : lookupTable sub a.1 with _ | srow
    · rw [lookupTable_cons, lookupTable_cons]
      by_cases h : a.1 = j
      · subst h
        simp [hs]
      · rw [if_neg h, if_neg h]
        exact ih
    · simp only []
      rw [lookupTable_cons, lookupTable_cons]
      by_cases h : a.1 = j
      · subst h
        simp [hs]
      · simp only [if_neg h]
        exact ih

/-- Merging an uploaded row over its original (id-less) version gives exactly
the uploaded row: pandas `update` only skips the id when the result is `NaN`,
and then the original id was `NaN` too. -/
theorem mergeRow_uploadRow (row : Row) (hid : row.id = none) (oid : Option Nat) :
    mergeRow row (uploadRow row oid) = uploadRow row oid := by
  rcases row with ⟨t, c, f, b, i, fl, tg, dn, mn⟩
  simp only at hid
  subst hid
  cases f <;> cases b <;> cases fl <;> cases oid <;> rfl

/-- The uploaded sub-frame of `upload_new_notes`, fused into one map. -/
theorem upload_subframe_eq (df : Table) (res : List (Option Nat)) :
    ((df.zip res).map (fun p => (p.1.1, { p.1.2 with id := p.2 }))).map
        (fun x => (x.1, { x.2 with text := insert_card_id_row x.2 }))
      = (df.zip res).map (fun p => (p.1.1, uploadRow p.1.2 p.2)) := by
  rw [List.map_map]
  rfl

/-- The uploaded sub-frame keeps the indices of the filtered frame. -/
theorem upload_subframe_fst (df : Table) (res : List (Option Nat))
    (hlen : res.length = df.length) :
    ((df.zip res).map (fun p => (p.1.1, uploadRow p.1.2 p.2))).map Prod.fst
      = df.map Prod.fst := by
  rw [List.map_map]
  have h1 : (Prod.fst ∘ fun p : (Nat × Row) × Option Nat => (p.1.1, uploadRow p.1.2 p.2))
      = Prod.fst ∘ Prod.fst := rfl
  rw [h1, ← List.map_map, List.map_fst_zip df res (by omega)]

/-- **C4** Upload result handling: one batch creation call is issued; the
`i`-th result entry is assigned to the `i`-th submitted row (positional
correspondence), and a row whose entry is `none` ends the operation with its
remote id still null (so the next run's new-row filter picks it up again). -/
theorem C4_upload_result_handling (r : Remote) (ns : NoteSet)
    (df : Table) (res : List (Option Nat))
    (hdf : df = ns.df.filter (fun x => isNewCard x.2))
    (hres : res = r.addNotesResult (df.map (fun x => notePayload x.2)))
    (hnodup : (ns.df.map Prod.fst).Nodup)
    (hne : df ≠ []) (hlen : res.length = df.length) :
    ∃ ns2, upload_new_notes r ns
        = some (ns2, [Call.addNotes (df.map (fun x => notePayload x.2))]) ∧
      ∀ k, (hk2 : k < df.length) → (hk3 : k < res.length) →
        lookupTable ns2.df (df.get ⟨k, hk2⟩).1
            = some (uploadRow (df.get ⟨k, hk2⟩).2 (res.get ⟨k, hk3⟩)) ∧
          (res.get ⟨k, hk3⟩ = none → (uploadRow (df.get ⟨k, hk2⟩).2 none).id = none) := by
  refine ⟨{ ns with
    df := tableUpdate ns.df ((df.zip res).map (fun p => (p.1.1, uploadRow p.1.2 p.2))) }, ?_, ?_⟩
  · unfold upload_new_notes
    rw [← hdf]
    rw [if_neg (by simp only [List.isEmpty_iff]; exact hne)]
    simp only [add_notes, ← hres]
    rw [if_pos hlen, upload_subframe_eq]
  · intro k hk2 hk3
    have hdfnd : (df.map Prod.fst).Nodup := by
      rw [hdf]
      exact List.Nodup.sublist (List.Sublist.map Prod.fst (List.filter_sublist ns.df)) hnodup
    have hsubnd : (((df.zip res).map (fun p => (p.1.1, uploadRow p.1.2 p.2))).map
        Prod.fst).Nodup := by
      rw [upload_subframe_fst df res hlen]
      exact hdfnd
    have hzk : k < (df.zip res).length := by
      rw [List.length_zip]
      omega
    have h1 : (df.zip res).get ⟨k, hzk⟩ = (df.get ⟨k, hk2⟩, res.get ⟨k, hk3⟩) := by
      simp [List.get_eq_getElem, List.getElem_zip]
    have hmem1 : (df.get ⟨k, hk2⟩, res.get ⟨k, hk3⟩) ∈ df.zip res := by
      rw [← h1]
      exact List.get_mem (df.zip res) k hzk
    have hmemsub : ((df.get ⟨k, hk2⟩).1, uploadRow (df.get ⟨k, hk2⟩).2 (res.get ⟨k, hk3⟩))
        ∈ (df.zip res).map (fun p => (p.1.1, uploadRow p.1.2 p.2)) :=
      List.mem_map_of_mem (fun p => (p.1.1, uploadRow p.1.2 p.2)) hmem1
    have hsub2 : ∀ x ∈ df, x ∈ ns.df ∧ x.2.id = none := by
      intro x hx
      rw [hdf] at hx
      refine ⟨(List.mem_filter.mp hx).1, ?_⟩
      have h2 := (List.mem_filter.mp hx).2
      simp only [isNewCard, Bool.and_eq_true, Option.isNone_iff_eq_none] at h2
      exact h2.2
    have hmemdf : df.get ⟨k, hk2⟩ ∈ ns.df :=
      (hsub2 _ (List.get_mem df k hk2)).1
    have hiddf : (df.get ⟨k, hk2⟩).2.id = none :=
      (hsub2 _ (List.get_mem df k hk2)).2
    have hmain : lookupTable ns.df (df.get ⟨k, hk2⟩).1 = some (df.get ⟨k, hk2⟩).2 :=
      lookupTable_of_mem_nodup ns.df _ _ hnodup hmemdf
    have hsublk : lookupTable ((df.zip res).map (fun p => (p.1.1, uploadRow p.1.2 p.2)))
        (df.get ⟨k, hk2⟩).1
        = some (uploadRow (df.get ⟨k, hk2⟩).2 (res.get ⟨k, hk3⟩)) :=
      lookupTable_of_mem_nodup _ _ _ hsubnd hmemsub
    refine ⟨?_, fun _ => rfl⟩
    show lookupTable (tableUpdate ns.df _) (df.get ⟨k, hk2⟩).1 = _
    rw [lookupTable_tableUpdate, hmain]
    simp only [hsublk]
    rw [mergeRow_uploadRow _ hiddf]

/-- Witness for C4: one new row submitted, the store returns `[none]`; the
single batch call is issued and the row's id stays null. -/
theorem C4_upload_result_handling_witness :
    ∃ ns2, upload_new_notes fxRemoteNoneAdd fxNs
        = some (ns2, [Call.addNotes (([(1, fxRowNew)] : Table).map
            (fun x => notePayload x.2))]) ∧
      ∀ k, (hk2 : k < ([(1, fxRowNew)] : Table).length) →
        (hk3 : k < ([none] : List (Option Nat)).length) →
        lookupTable ns2.df ((([(1, fxRowNew)] : Table).get ⟨k, hk2⟩).1)
            = some (uploadRow ((([(1, fxRowNew)] : Table).get ⟨k, hk2⟩).2)
                (([none] : List (Option Nat)).get ⟨k, hk3⟩)) ∧
          (([none] : List (Option Nat)).get ⟨k, hk3⟩ = none →
            (uploadRow ((([(1, fxRowNew)] : Table).get ⟨k, hk2⟩).2) none).id = none) :=
  C4_upload_result_handling fxRemoteNoneAdd fxNs [(1, fxRowNew)] [none]
    (by decide) (by decide) (by decide) (by decide) (by decide)

/-! ## Duplicate repair lemmas -/

/-- The two-phase body of `repair_duplicate_notes` (sequence the searches,
then assign positionally) equals the fused traversal. -/
theorem optionList_zip_eq_repairDupAux (r : Remote) (l : List (Nat × Row × String)) :
    (match optionList (l.map (fun x => (r.findNotes (frontQuery x.2.1)).head?)) with
     | none => none
     | some dup_ids =>
        some ((l.zip dup_ids).map (fun p => (p.1.1, dupRepairRow p.1.2.1 p.2))))
      = repairDupAux r l := by
  induction l with
  | nil => rfl
  | cons x xs ih =>
    rw [List.map_cons, repairDupAux]
    rcases hfx : (r.findNotes (frontQuery x.2.1)).head? with _ | n
    · rfl
    · rcases hol : optionList (xs.map (fun x => (r.findNotes (frontQuery x.2.1)).head?))
        with _ | ids
      · rw [hol] at ih
        rcases haux : repairDupAux r xs with _ | rest
        · simp only [optionList, hol]
        · rw [haux] at ih
          cases ih
      · rw [hol] at ih
        rcases haux : repairDupAux r xs with _ | rest
        · rw [haux] at ih
          cases ih
        · rw [haux] at ih
          simp only [optionList, hol]
          injection ih with ih2
          rw [List.zip_cons_cons, List.map_cons, ih2]

/-- `repair_duplicate_notes` is the fused traversal over the duplicate rows. -/
theorem repair_duplicate_notes_eq_aux (r : Remote) (e_df : List (Nat × Row × String)) :
    repair_duplicate_notes r e_df
      = repairDupAux r (e_df.filter (fun x => x.2.2 == dupError)) := by
  unfold repair_duplicate_notes
  rcases hf : e_df.filter (fun x => x.2.2 == dupError) with _ | ⟨y, ys⟩
  · simp only [hf]
    rfl
  · simp only [hf]
    rw [if_neg (by simp)]
    exact optionList_zip_eq_repairDupAux r (y :: ys)

/-- The fused traversal fails exactly when some search comes back empty. -/
theorem repairDupAux_eq_none_iff (r : Remote) (l : List (Nat × Row × String)) :
    repairDupAux r l = none ↔ ∃ x ∈ l, r.findNotes (frontQuery x.2.1) = [] := by
  induction l with
  | nil => simp [repairDupAux]
  | cons x xs ih =>
    rw [repairDupAux]
    rcases hfx : (r.findNotes (frontQuery x.2.1)).head? with _ | n
    · rw [List.head?_eq_none_iff] at hfx
      simp only []
      constructor
      · intro _
        exact ⟨x, List.mem_cons_self x xs, hfx⟩
      · intro _
        trivial
    · rcases hol : repairDupAux r xs with _ | rest
      · rw [hol] at ih
        simp only []
        constructor
        · intro _
          rcases ih.mp rfl with ⟨y, hy, hyf⟩
          exact ⟨y, List.mem_cons_of_mem x hy, hyf⟩
        · intro _
          trivial
      · rw [hol] at ih
        simp only []
        constructor
        · intro h
          cases h
        · rintro ⟨y, hy, hyf⟩
          rcases List.mem_cons.mp hy with h | h
          · rw [← h, hyf] at hfx
            cases hfx
          · simpa using ih.mpr ⟨y, h, hyf⟩

/-- Every row the fused traversal processes adopts the head of its search. -/
theorem repairDupAux_mem (r : Remote) (l : List (Nat × Row × String))
    (dup : List (Nat × Row)) (h : repairDupAux r l = some dup) :
    ∀ x ∈ l, ∃ n t, r.findNotes (frontQuery x.2.1) = n :: t ∧
      (x.1, dupRepairRow x.2.1 n) ∈ dup := by
  induction l generalizing dup with
  | nil => intro x hx; cases hx
  | cons y ys ih =>
    intro x hx
    rw [repairDupAux] at h
    rcases hfy : (r.findNotes (frontQuery y.2.1)).head? with _ | n <;> rw [hfy] at h
    · cases h
    · rcases hol : repairDupAux r ys with _ | rest <;> rw [hol] at h
      · cases h
      · injection h with h2
        rcases List.mem_cons.mp hx with hxy | hxy
        · rcases List.head?_eq_some_iff.mp hfy with ⟨t, ht⟩
          subst hxy
          exact ⟨n, t, ht, by rw [← h2]; exact List.mem_cons_self _ _⟩
        · rcases ih rest hol x hxy with ⟨n2, t2, hft, hmem⟩
          exact ⟨n2, t2, hft, by rw [← h2]; exact List.mem_cons_of_mem _ hmem⟩

/-- The fused traversal keeps the indices of the rows it was given. -/
theorem repairDupAux_fst (r : Remote) (l : List (Nat × Row × String))
    (dup : List (Nat × Row)) (h : repairDupAux r l = some dup) :
    dup.map Prod.fst = l.map Prod.fst := by
  induction l generalizing dup with
  | nil => cases h; rfl
  | cons y ys ih =>
    rw [repairDupAux] at h
    rcases hfy : (r.findNotes (frontQuery y.2.1)).head? with _ | n <;> rw [hfy] at h
    · cases h
    · rcases hol : repairDupAux r ys with _ | rest <;> rw [hol] at h
      · cases h
      · injection h with h2
        rw [← h2, List.map_cons, List.map_cons, ih rest hol]

/-- Every error entry comes from a row of the queried frame. -/
theorem find_error_notes_mem (r : Remote) (df : Table)
    (e_df : List (Nat × Row × String)) (h : find_error_notes r df = some e_df) :
    ∀ x ∈ e_df, (x.1, x.2.1) ∈ df := by
  unfold find_error_notes at h
  simp only [] at h
  split at h
  · injection h with h2
    intro x hx
    rw [← h2] at hx
    rcases List.mem_filterMap.mp hx with ⟨p, hp, hpx⟩
    rcases hq : p.2 with _ | e <;> rw [hq] at hpx
    · cases hpx
    · injection hpx with h3
      rw [← h3]
      exact (List.of_mem_zip (by rw [← Prod.mk.eta (p := p.1)]; exact hp)).1
  · cases h

/-- The projection of error entries to `(index, row)` pairs retains a sublist
of the zipped frame's first components. -/
theorem errmap_fst_sublist (z : List ((Nat × Row) × Option String)) :
    ((z.filterMap (fun p =>
        match p.2 with
        | some e => some (p.1.1, p.1.2, e)
        | none => none)).map Prod.fst).Sublist (z.map (fun p => p.1.1)) := by
  induction z with
  | nil => exact List.Sublist.refl []
  | cons p zs ih =>
    rw [List.filterMap_cons, List.map_cons]
    rcases p.2 with _ | e
    · exact List.Sublist.cons p.1.1 ih
    · rw [List.map_cons]
      exact List.Sublist.cons₂ p.1.1 ih

/-- Mapping the first projection over a zip recovers the first list's map. -/
theorem zip_map_fst_fn {α β γ : Type} (l1 : List α) (l2 : List β) (f : α → γ)
    (h : l1.length ≤ l2.length) :
    (l1.zip l2).map (fun p => f p.1) = l1.map f := by
  have h1 : (l1.zip l2).map (fun p => f p.1)
      = ((l1.zip l2).map Prod.fst).map f := by
    rw [List.map_map]
    rfl
  rw [h1, List.map_fst_zip l1 l2 h]

/-- The error frame's indices form a sublist of the queried frame's. -/
theorem find_error_notes_fst_sublist (r : Remote) (df : Table)
    (e_df : List (Nat × Row × String)) (h : find_error_notes r df = some e_df) :
    (e_df.map Prod.fst).Sublist (df.map Prod.fst) := by
  unfold find_error_notes at h
  simp only [] at h
  split at h
  · injection h with h2
    rw [← h2]
    have h3 := errmap_fst_sublist (df.zip (r.canAddNotesWithErrorDetail
      (df.map (fun x => notePayload x.2))))
    rwa [zip_map_fst_fn df _ Prod.fst (by omega)] at h3
  · cases h

/-- Two entries of a list with distinct first components and the same first
component are equal. -/
theorem fst_nodup_unique {β : Type} (l : List (Nat × β))
    (hnd : (l.map Prod.fst).Nodup) (a b : Nat × β)
    (ha : a ∈ l) (hb : b ∈ l) (hab : a.1 = b.1) : a = b := by
  induction l with
  | nil => cases ha
  | cons c rest ih =>
    rw [List.map_cons, List.nodup_cons] at hnd
    rcases List.mem_cons.mp ha with h1 | h1 <;> rcases List.mem_cons.mp hb with h2 | h2
    · rw [h1, h2]
    · exfalso
      apply hnd.1
      rw [← h1, hab]
      exact List.mem_map_of_mem Prod.fst h2
    · exfalso
      apply hnd.1
      rw [← h2, ← hab]
      exact List.mem_map_of_mem Prod.fst h1
    · exact ih hnd.2 h1 h2

/-- `tableUpdate` leaves the index column unchanged. -/
theorem tableUpdate_fst (main sub : Table) :
    (tableUpdate main sub).map Prod.fst = main.map Prod.fst := by
  rw [tableUpdate, List.map_map]
  refine List.map_congr_left ?_
  intro x _
  simp only [Function.comp_apply]
  rcases h : lookupTable sub x.1 with _ | srow <;> rfl

/-- `assignRows` leaves the index column unchanged. -/
theorem assignRows_fst (main sub : Table) :
    (assignRows main sub).map Prod.fst = main.map Prod.fst := by
  rw [assignRows, List.map_map]
  refine List.map_congr_left ?_
  intro x _
  simp only [Function.comp_apply]
  rcases h : lookupTable sub x.1 with _ | srow <;> rfl

/-- **C2** Duplicate repair: a new card row whose validity error is exactly the
duplicate-content string adopts the head of the `findNotes` search on its
front text: afterwards it carries that non-null id, is out of the error set,
and fails the new-row filter of the creation batch; a row with any other error
string is left in the error set with its row untouched. -/
theorem C2_duplicate_repair (r : Remote) (df : Table)
    (hnodup : (df.map Prod.fst).Nodup)
    (hnew : ∀ x ∈ df, isNewCard x.2 = true)
    (e_df : List (Nat × Row × String)) (hfe : find_error_notes r df = some e_df)
    (df2 : Table) (e2 : List (Nat × Row × String))
    (hre : repair_errors r df = some (df2, e2))
    (i : Nat) (row : Row) (err : String) (hmem : (i, row, err) ∈ e_df) :
    (err = dupError →
      ∃ n t, r.findNotes (frontQuery row) = n :: t ∧
        lookupTable df2 i = some (dupRepairRow row n) ∧
        (dupRepairRow row n).id = some n ∧
        (∀ y ∈ e2, y.1 ≠ i) ∧
        (∀ y ∈ df2.filter (fun x => isNewCard x.2), y.1 ≠ i)) ∧
    (err ≠ dupError → ((i, row, err) ∈ e2 ∧ lookupTable df2 i = some row)) := by
  unfold repair_errors at hre
  rw [hfe] at hre
  simp only [] at hre
  rcases hrd : repair_duplicate_notes r e_df with _ | dup <;> rw [hrd] at hre
  · cases hre
  · injection hre with hre2
    injection hre2 with hdf2 he2
    rw [repair_duplicate_notes_eq_aux] at hrd
    have hefst : (e_df.map Prod.fst).Sublist (df.map Prod.fst) :=
      find_error_notes_fst_sublist r df e_df hfe
    have hend : (e_df.map Prod.fst).Nodup := List.Nodup.sublist hefst hnodup
    have hdupfst : dup.map Prod.fst
        = (e_df.filter (fun x => x.2.2 == dupError)).map Prod.fst :=
      repairDupAux_fst r _ dup hrd
    have hdupnd : (dup.map Prod.fst).Nodup := by
      rw [hdupfst]
      exact List.Nodup.sublist
        (List.Sublist.map Prod.fst (List.filter_sublist e_df)) hend
    have hrowdf : (i, row) ∈ df := find_error_notes_mem r df e_df hfe (i, row, err) hmem
    have hrowid : row.id = none := by
      have h2 := hnew (i, row) hrowdf
      simp only [isNewCard, Bool.and_eq_true, Option.isNone_iff_eq_none] at h2
      exact h2.2
    have hlkdf : lookupTable df i = some row :=
      lookupTable_of_mem_nodup df i row hnodup hrowdf
    constructor
    · intro herr
      have hmemf : (i, row, err) ∈ e_df.filter (fun x => x.2.2 == dupError) :=
        List.mem_filter.mpr ⟨hmem, by simp [herr]⟩
      rcases repairDupAux_mem r _ dup hrd (i, row, err) hmemf with ⟨n, t, hfind, hmemdup⟩
      have hlkdup : lookupTable dup i = some (dupRepairRow row n) :=
        lookupTable_of_mem_nodup dup i _ hdupnd hmemdup
      have hlk2 : lookupTable df2 i = some (dupRepairRow row n) := by
        rw [← hdf2, lookupTable_tableUpdate, hlkdf]
        simp only [hlkdup]
        have : dupRepairRow row n = uploadRow row (some n) := rfl
        rw [this, mergeRow_uploadRow row hrowid]
      refine ⟨n, t, hfind, hlk2, rfl, ?_, ?_⟩
      · intro y hy
        rw [← he2] at hy
        have h3 := (List.mem_filter.mp hy).2
        rw [Bool.not_eq_eq_eq_not, Bool.not_true, List.any_eq_false] at h3
        have h4 := h3 (i, dupRepairRow row n) hmemdup
        simp only [beq_iff_eq] at h4
        intro h5
        exact h4 (by rw [h5])
      · intro y hy
        have hy2 := List.mem_filter.mp hy
        intro h5
        have hfst2 : (df2.map Prod.fst).Nodup := by
          rw [← hdf2, tableUpdate_fst]
          exact hnodup
        have hlky : lookupTable df2 y.1 = some y.2 :=
          lookupTable_of_mem_nodup df2 y.1 y.2 hfst2 (by
            rw [Prod.mk.eta]
            exact hy2.1)
        rw [h5, hlk2] at hlky
        injection hlky with h6
        have h7 := hy2.2
        rw [← h6] at h7
        simp [isNewCard, dupRepairRow] at h7
    · intro herr
      have hnind : ∀ z ∈ dup, z.1 ≠ i := by
        intro z hz h5
        have h6 : z.1 ∈ (e_df.filter (fun x => x.2.2 == dupError)).map Prod.fst := by
          rw [← hdupfst]
          exact List.mem_map_of_mem Prod.fst hz
        rcases List.mem_map.mp h6 with ⟨w, hw, hwz⟩
        have hw2 := List.mem_filter.mp hw
        have hweq : w = (i, row, err) :=
          fst_nodup_unique e_df hend w (i, row, err) hw2.1 hmem (by rw [hwz, h5])
        have h8 := hw2.2
        rw [hweq] at h8
        simp only [beq_iff_eq] at h8
        exact herr h8
      constructor
      · rw [← he2]
        refine List.mem_filter.mpr ⟨hmem, ?_⟩
        rw [Bool.not_eq_eq_eq_not, Bool.not_true, List.any_eq_false]
        intro z hz
        simp only [beq_iff_eq]
        exact hnind z hz
      · rw [← hdf2, lookupTable_tableUpdate, hlkdf]
        have hlknone : lookupTable dup i = none :=
          lookupTable_eq_none dup i hnind
        simp only [hlknone]

/-- Witness for C2: one new row reported as a duplicate; the id `99` found by
the search is adopted, the error set ends empty and the repaired row fails the
new-row filter. -/
theorem C2_duplicate_repair_witness :
    (dupError = dupError →
      ∃ n t, fxRemoteDup.findNotes (frontQuery fxRowNew) = n :: t ∧
        lookupTable [(1, dupRepairRow fxRowNew 99)] 1 = some (dupRepairRow fxRowNew n) ∧
        (dupRepairRow fxRowNew n).id = some n ∧
        (∀ y ∈ ([] : List (Nat × Row × String)), y.1 ≠ 1) ∧
        (∀ y ∈ ([(1, dupRepairRow fxRowNew 99)] : Table).filter
            (fun x => isNewCard x.2), y.1 ≠ 1)) ∧
    (dupError ≠ dupError → ((1, fxRowNew, dupError) ∈ ([] : List (Nat × Row × String)) ∧
        lookupTable [(1, dupRepairRow fxRowNew 99)] 1 = some fxRowNew)) :=
  C2_duplicate_repair fxRemoteDup [(1, fxRowNew)] (by decide) (by decide)
    [(1, fxRowNew, dupError)] (by decide)
    [(1, dupRepairRow fxRowNew 99)] [] (by decide)
    1 fxRowNew dupError (by decide)

/-- **C9** Implicit precondition of duplicate repair: the repair takes `[0]` of
each duplicate row's search result, so it fails (an out-of-range access,
modelled as `none`) exactly when some duplicate-reported row's search returns
an empty list, and on success each duplicate row adopts the first id of its
search without disambiguation. -/
theorem C9_duplicate_repair_partiality (r : Remote) (e_df : List (Nat × Row × String)) :
    (repair_duplicate_notes r e_df = none ↔
      ∃ x ∈ e_df, x.2.2 = dupError ∧ r.findNotes (frontQuery x.2.1) = []) ∧
    (∀ dup, repair_duplicate_notes r e_df = some dup →
      ∀ x ∈ e_df, x.2.2 = dupError →
        ∃ n t, r.findNotes (frontQuery x.2.1) = n :: t ∧
          (x.1, dupRepairRow x.2.1 n) ∈ dup) := by
  constructor
  · rw [repair_duplicate_notes_eq_aux, repairDupAux_eq_none_iff]
    constructor
    · rintro ⟨x, hx, hxf⟩
      have h2 := List.mem_filter.mp hx
      exact ⟨x, h2.1, by simpa using h2.2, hxf⟩
    · rintro ⟨x, hx, hdup, hxf⟩
      exact ⟨x, List.mem_filter.mpr ⟨hx, by simp [hdup]⟩, hxf⟩
  · intro dup hdup x hx herr
    rw [repair_duplicate_notes_eq_aux] at hdup
    exact repairDupAux_mem r _ dup hdup x (List.mem_filter.mpr ⟨hx, by simp [herr]⟩)

/-- Witness for C9: on a remote whose searches all come back empty, repairing
one duplicate-reported row fails with the modelled out-of-range access. -/
theorem C9_duplicate_repair_partiality_witness :
    repair_duplicate_notes fxRemoteGone [(1, fxRowNew, dupError)] = none :=
  (C9_duplicate_repair_partiality fxRemoteGone [(1, fxRowNew, dupError)]).1.mpr
    ⟨(1, fxRowNew, dupError), by decide, rfl, rfl⟩

/-- Two entries of a list with distinct keys and the same key are equal. -/
theorem key_nodup_unique {β : Type} (l : List β) (key : β → Nat)
    (hnd : (l.map key).Nodup) (a b : β)
    (ha : a ∈ l) (hb : b ∈ l) (hab : key a = key b) : a = b := by
  induction l with
  | nil => cases ha
  | cons c rest ih =>
    rw [List.map_cons, List.nodup_cons] at hnd
    rcases List.mem_cons.mp ha with h1 | h1 <;> rcases List.mem_cons.mp hb with h2 | h2
    · rw [h1, h2]
    · exfalso
      apply hnd.1
      rw [← h1, hab]
      exact List.mem_map_of_mem key h2
    · exfalso
      apply hnd.1
      rw [← h2, ← hab]
      exact List.mem_map_of_mem key h1
    · exact ih hnd.2 h1 h2

/-- **C3** Deletion repair: a card row whose batched `notesInfo` result is
empty is classified deleted; its repair clears the remote id, strips the
identifier marker from its text lines, and makes it satisfy the new-row
filter again (so the next upload batch includes it); a row whose result is
non-empty stays in the surviving frame untouched, its index outside the
repaired set. -/
theorem C3_deletion_repair (df : Table) (queried : List (Option Fields))
    (hnodup : (df.map Prod.fst).Nodup)
    (hlen : queried.length = df.length)
    (alive deleted : Table)
    (hfd : find_deleted_notes df queried = some (alive, deleted)) :
    ∀ p ∈ df.zip queried,
      (p.2 = none →
        p.1 ∈ deleted ∧
        (p.1.1, clearIdRow p.1.2) ∈ repair_deleted_notes deleted ∧
        (clearIdRow p.1.2).id = none ∧
        (∀ l ∈ (clearIdRow p.1.2).text, l.isIdMarker = false) ∧
        isNewCard (clearIdRow p.1.2) = p.1.2.is_card) ∧
      (p.2 ≠ none →
        p.1 ∈ alive ∧ ∀ q ∈ deleted, q.1 ≠ p.1.1) := by
  unfold find_deleted_notes at hfd
  rw [if_pos hlen] at hfd
  injection hfd with hfd2
  injection hfd2 with halive hdeleted
  intro p hp
  constructor
  · intro hq
    have hdel : p.1 ∈ deleted := by
      rw [← hdeleted]
      refine List.mem_filterMap.mpr ⟨p, hp, ?_⟩
      rw [hq]
      rfl
    refine ⟨hdel, ?_, rfl, ?_, ?_⟩
    · exact List.mem_map_of_mem (fun x => (x.1, clearIdRow x.2)) hdel
    · intro l hl
      have h2 : l ∈ p.1.2.text.filter (fun l => !l.isIdMarker) := by
        simpa [clearIdRow, insert_card_id_row] using hl
      have h3 := (List.mem_filter.mp h2).2
      simp only [Bool.not_eq_eq_eq_not, Bool.not_true] at h3
      exact h3
    · simp [isNewCard, clearIdRow]
  · intro hq
    constructor
    · rw [← halive]
      refine List.mem_filterMap.mpr ⟨p, hp, ?_⟩
      rw [if_pos]
      cases h : p.2 with
      | none => exact absurd h hq
      | some v => simp
    · intro q hqdel hqi
      rw [← hdeleted] at hqdel
      rcases List.mem_filterMap.mp hqdel with ⟨pz, hpz, hpzq⟩
      have hpz2 : pz.2.isNone = true ∧ pz.1 = q := by
        by_cases h : pz.2.isNone = true
        · rw [if_pos h] at hpzq
          injection hpzq with h2
          exact ⟨h, h2⟩
        · rw [if_neg h] at hpzq
          cases hpzq
      have hznd : ((df.zip queried).map (fun z => z.1.1)).Nodup := by
        rw [zip_map_fst_fn df queried Prod.fst (by omega)]
        exact hnodup
      have hpzp : pz = p :=
        key_nodup_unique (df.zip queried) (fun z => z.1.1) hznd pz p hpz hp
          (by show pz.1.1 = p.1.1; rw [hpz2.2, hqi])
      rw [hpzp] at hpz2
      rcases h : p.2 with _ | v
      · exact hq h
      · rw [h] at hpz2
        cases hpz2.1

/-- Witness for C3: one linked row whose query comes back empty is repaired to
a marker-free, id-free row that the new-row filter accepts again. -/
theorem C3_deletion_repair_witness :
    ((2, fxRowOld) : Nat × Row) ∈ ([(2, fxRowOld)] : Table) ∧
    ((2 : Nat), clearIdRow fxRowOld) ∈ repair_deleted_notes [(2, fxRowOld)] ∧
    (clearIdRow fxRowOld).id = none ∧
    (∀ l ∈ (clearIdRow fxRowOld).text, l.isIdMarker = false) ∧
    isNewCard (clearIdRow fxRowOld) = fxRowOld.is_card :=
  (C3_deletion_repair [(2, fxRowOld)] [none] (by decide) (by decide)
    [] [(2, fxRowOld)] (by decide) ((2, fxRowOld), none) (by decide)).1 rfl

/-! ## Drift detection lemmas -/

/-- When every query result is present, `find_updatable_notes` splits the
frame by structural equality of the local fields against the queried fields. -/
theorem find_updatable_all_some (df : Table) (queried : List (Option Fields))
    (hlen : queried.length = df.length) (hall : ∀ q ∈ queried, q.isSome = true) :
    find_updatable_notes df queried
      = some ((df.zip queried).filterMap
            (fun p => if p.1.2.fields = p.2 then none else some p.1),
          (df.zip queried).filterMap
            (fun p => if p.1.2.fields = p.2 then some p.1 else none)) := by
  have hmapq : queried.filterMap id = queried.map (fun q => q.getD default) := by
    refine filterMap_eq_map_of _ _ _ ?_
    intro q hq
    have h2 := hall q hq
    cases h : q with
    | none => rw [h] at h2; cases h2
    | some v => simp
  have hptw : ∀ p ∈ df.zip queried, p.2 = some (p.2.getD default) := by
    intro p hp
    have h2 := hall p.2 (List.of_mem_zip hp).2
    cases h : p.2 with
    | none => rw [h] at h2; cases h2
    | some v => simp
  unfold find_updatable_notes
  rw [hmapq]
  rw [if_pos (by rw [List.length_map]; omega)]
  rw [List.zip_map_right, List.filterMap_map, List.filterMap_map]
  have h1 : (df.zip queried).filterMap
      ((fun p : (Nat × Row) × Fields => if p.1.2.fields = some p.2 then none else some p.1)
        ∘ Prod.map id (fun q => q.getD default))
      = (df.zip queried).filterMap (fun p => if p.1.2.fields = p.2 then none else some p.1) := by
    refine List.filterMap_congr ?_
    intro p hp
    simp only [Function.comp_apply, Prod.map, id_eq]
    rw [← hptw p hp]
  have h2 : (df.zip queried).filterMap
      ((fun p : (Nat × Row) × Fields => if p.1.2.fields = some p.2 then some p.1 else none)
        ∘ Prod.map id (fun q => q.getD default))
      = (df.zip queried).filterMap (fun p => if p.1.2.fields = p.2 then some p.1 else none) := by
    refine List.filterMap_congr ?_
    intro p hp
    simp only [Function.comp_apply, Prod.map, id_eq]
    rw [← hptw p hp]
  rw [h1, h2]

/-- **C6** Drift detection and update: with every queried id resolving, a row
is classified updatable exactly when its local fields differ structurally from
the queried remote fields, and `update_existing_notes` issues exactly one
`updateNote` call per updatable row, none for a row whose fields agree. -/
theorem C6_drift_detection (r : Remote) (ns : NoteSet)
    (df : Table) (queried : List (Option Fields))
    (hdf : df = ns.df.filter (fun x => isExistingCard x.2))
    (hq : queried = r.notesInfo (df.map (fun x => x.2.id.getD 0)))
    (hne : df ≠ [])
    (hlen : queried.length = df.length)
    (hall : ∀ q ∈ queried, q.isSome = true) :
    ∃ upd utd, find_updatable_notes df queried = some (upd, utd) ∧
      upd = (df.zip queried).filterMap
          (fun p => if p.1.2.fields = p.2 then none else some p.1) ∧
      utd = (df.zip queried).filterMap
          (fun p => if p.1.2.fields = p.2 then some p.1 else none) ∧
      update_existing_notes r ns
        = some (upd.map (fun x => Call.updateNote (notePayload x.2) (x.2.id.getD 0))) := by
  refine ⟨_, _, find_updatable_all_some df queried hlen hall, rfl, rfl, ?_⟩
  unfold update_existing_notes
  rw [← hdf]
  rw [if_neg (by simp only [List.isEmpty_iff]; exact hne)]
  rw [← hq]
  simp only [find_updatable_all_some df queried hlen hall]

/-- Witness for C6: the single linked row has drifted remote fields and gets
exactly one `updateNote` call. -/
theorem C6_drift_detection_witness :
    ∃ upd utd, find_updatable_notes [(1, fxRowOld)]
        [some { Front := "Q2", Back := "ZZ" }] = some (upd, utd) ∧
      upd = (([(1, fxRowOld)] : Table).zip
            [some { Front := "Q2", Back := "ZZ" }]).filterMap
          (fun p => if p.1.2.fields = p.2 then none else some p.1) ∧
      utd = (([(1, fxRowOld)] : Table).zip
            [some { Front := "Q2", Back := "ZZ" }]).filterMap
          (fun p => if p.1.2.fields = p.2 then some p.1 else none) ∧
      update_existing_notes fxRemoteDrift fxNsDone
        = some (upd.map (fun x => Call.updateNote (notePayload x.2) (x.2.id.getD 0))) :=
  C6_drift_detection fxRemoteDrift fxNsDone [(1, fxRowOld)]
    [some { Front := "Q2", Back := "ZZ" }]
    (by decide) (by decide) (by decide) (by decide) (by decide)

/-- **C10** Implicit precondition of the update pass: the queried-fields
sequence is built from non-empty results only but re-indexed by the full row
set, so `find_updatable_notes` fails (a length mismatch, modelled as `none`)
exactly when some queried id resolves to an empty result, and
`update_existing_notes` then fails instead of skipping that row. -/
theorem C10_update_pass_precondition (r : Remote) (ns : NoteSet)
    (df : Table) (queried : List (Option Fields))
    (hdf : df = ns.df.filter (fun x => isExistingCard x.2))
    (hq : queried = r.notesInfo (df.map (fun x => x.2.id.getD 0)))
    (hlen : queried.length = df.length) :
    (find_updatable_notes df queried = none ↔ ∃ q ∈ queried, q = none) ∧
    (df ≠ [] → (∃ q ∈ queried, q = none) → update_existing_notes r ns = none) := by
  have hiff : find_updatable_notes df queried = none ↔ ∃ q ∈ queried, q = none := by
    unfold find_updatable_notes
    by_cases hc : (queried.filterMap id).length = df.length
    · rw [if_pos hc]
      constructor
      · intro h
        cases h
      · rintro ⟨q, hq2, hqnone⟩
        exfalso
        have hlenq : (queried.filterMap id).length = queried.length := by omega
        have hallq := List.filterMap_length_eq_length.mp hlenq q hq2
        rw [hqnone] at hallq
        cases hallq
    · rw [if_neg hc]
      constructor
      · intro _
        by_contra hng
        push_neg at hng
        apply hc
        have : ∀ q ∈ queried, (id q).isSome = true := by
          intro q hq2
          cases h : q with
          | none => exact absurd h (hng q hq2)
          | some v => simp
        rw [List.filterMap_length_eq_length.mpr this]
        omega
      · intro _
        rfl
  refine ⟨hiff, ?_⟩
  intro hne hex
  unfold update_existing_notes
  rw [← hdf]
  rw [if_neg (by simp only [List.isEmpty_iff]; exact hne)]
  rw [← hq]
  simp only [hiff.mpr hex]

/-- Witness for C10: the single linked row's query comes back empty and the
update pass fails with the modelled length-mismatch error. -/
theorem C10_update_pass_precondition_witness :
    update_existing_notes fxRemoteGone fxNsDone = none :=
  (C10_update_pass_precondition fxRemoteGone fxNsDone [(1, fxRowOld)] [none]
    (by decide) (by decide) (by decide)).2 (by decide) ⟨none, by decide, rfl⟩

/-! ## Deck placement lemmas -/

/-- Membership in the wrong-deck accumulator loop of `adjust_notes_deck`. -/
theorem wrong_deck_foldl_mem (dd : List (String × List Nat)) (dn : String) :
    ∀ (acc : List Nat) (n : Nat),
      n ∈ dd.foldl (fun acc kv => if kv.1 ≠ dn then acc ++ kv.2 else acc) acc ↔
        n ∈ acc ∨ ∃ kv ∈ dd, kv.1 ≠ dn ∧ n ∈ kv.2 := by
  induction dd with
  | nil =>
    intro acc n
    simp
  | cons kv dd ih =>
    intro acc n
    rw [List.foldl_cons]
    by_cases hk : kv.1 ≠ dn
    · rw [if_pos hk, ih]
      simp only [List.mem_append, List.mem_cons]
      constructor
      · rintro ((h | h) | ⟨kv2, h2, h3⟩)
        · exact Or.inl h
        · exact Or.inr ⟨kv, Or.inl rfl, hk, h⟩
        · exact Or.inr ⟨kv2, Or.inr h2, h3⟩
      · rintro (h | ⟨kv2, (h2 | h2), h3⟩)
        · exact Or.inl (Or.inl h)
        · rw [h2] at h3
          exact Or.inl (Or.inr h3.2)
        · exact Or.inr ⟨kv2, h2, h3⟩
    · rw [if_neg hk, ih]
      simp only [List.mem_cons]
      constructor
      · rintro (h | ⟨kv2, h2, h3⟩)
        · exact Or.inl h
        · exact Or.inr ⟨kv2, Or.inr h2, h3⟩
      · rintro (h | ⟨kv2, (h2 | h2), h3⟩)
        · exact Or.inl h
        · rw [h2] at h3
          exact absurd h3.1 (by simpa using hk)
        · exact Or.inr ⟨kv2, h2, h3⟩

/-- **C7** Deck placement: on a non-empty surviving frame the engine issues
exactly one batched `changeDeck` call, whose card list holds exactly the ids
reported under a deck name different from the frame's declared deck; an id
reported only under the declared deck is not in the list. -/
theorem C7_deck_placement (r : Remote) (df : Table) (x0 : Nat × Row) (rest : Table)
    (hdf : df = x0 :: rest) :
    ∃ wrong, adjust_notes_deck r df = [Call.changeDeck wrong x0.2.deckName] ∧
      (∀ n, n ∈ wrong ↔ ∃ kv ∈ r.getDecks (df.map (fun x => x.2.id.getD 0)),
          kv.1 ≠ x0.2.deckName ∧ n ∈ kv.2) ∧
      (∀ n, (∀ kv ∈ r.getDecks (df.map (fun x => x.2.id.getD 0)),
          n ∈ kv.2 → kv.1 = x0.2.deckName) → n ∉ wrong) := by
  subst hdf
  refine ⟨(r.getDecks ((x0 :: rest).map (fun x => x.2.id.getD 0))).foldl
      (fun acc kv => if kv.1 ≠ x0.2.deckName then acc ++ kv.2 else acc) [], ?_, ?_, ?_⟩
  · unfold adjust_notes_deck
    rw [if_neg (by simp)]
    rfl
  · intro n
    rw [wrong_deck_foldl_mem]
    simp
  · intro n honly hn
    rw [wrong_deck_foldl_mem] at hn
    rcases hn with h | ⟨kv, h2, h3⟩
    · cases h
    · exact h3.1 (honly kv h2 h3.2)

/-- Witness for C7: the single linked card is reported under deck `E` while
the document declares `D`; the one `changeDeck` call moves exactly it. -/
theorem C7_deck_placement_witness :
    ∃ wrong, adjust_notes_deck fxRemoteWrongDeck [(2, fxRowOld)]
        = [Call.changeDeck wrong fxRowOld.deckName] ∧
      (∀ n, n ∈ wrong ↔ ∃ kv ∈ fxRemoteWrongDeck.getDecks
            (([(2, fxRowOld)] : Table).map (fun x => x.2.id.getD 0)),
          kv.1 ≠ fxRowOld.deckName ∧ n ∈ kv.2) ∧
      (∀ n, (∀ kv ∈ fxRemoteWrongDeck.getDecks
            (([(2, fxRowOld)] : Table).map (fun x => x.2.id.getD 0)),
          n ∈ kv.2 → kv.1 = fxRowOld.deckName) → n ∉ wrong) :=
  C7_deck_placement fxRemoteWrongDeck [(2, fxRowOld)] (2, fxRowOld) [] rfl

/-! ## Error exclusion lemmas -/

/-- Lookup succeeds whenever some entry carries the index. -/
theorem lookupTable_isSome_of_exists (t : Table) (j : Nat)
    (h : ∃ w ∈ t, w.1 = j) : ∃ row2, lookupTable t j = some row2 := by
  rcases h with ⟨w, hw, hwj⟩
  rcases hfind : t.find? (fun x => x.1 == j) with _ | v
  · rw [List.find?_eq_none] at hfind
    exact absurd (by simpa using hwj) (by simpa using hfind w hw)
  · exact ⟨v.2, by rw [lookupTable, hfind]; rfl⟩

/-- Rows surviving the error filter never carry an error row's index. -/
theorem mem_errfilter_ne (t : Table) (el : List (Nat × Row × String))
    (i : Nat) (row : Row) (err : String) (hmem : (i, row, err) ∈ el) :
    ∀ w ∈ t.filter (fun x => !(el.any (fun y => y.1 == x.1))), w.1 ≠ i := by
  intro w hw hwi
  have h2 := (List.mem_filter.mp hw).2
  rw [Bool.not_eq_eq_eq_not, Bool.not_true, List.any_eq_false] at h2
  exact h2 (i, row, err) hmem (by simpa using hwi.symm)

/-- `assignRows` preserves the absence of an index. -/
theorem assignRows_indices_ne (m2 sub : Table) (i : Nat)
    (h : ∀ w ∈ m2, w.1 ≠ i) : ∀ w ∈ assignRows m2 sub, w.1 ≠ i := by
  intro w hw
  have h2 : w.1 ∈ (assignRows m2 sub).map Prod.fst := List.mem_map_of_mem Prod.fst hw
  rw [assignRows_fst] at h2
  rcases List.mem_map.mp h2 with ⟨v, hv, hvw⟩
  rw [← hvw]
  exact h v hv

/-- `assignRows` preserves the presence of an index. -/
theorem assignRows_indices_mem (m2 sub : Table) (j : Nat)
    (h : ∃ w ∈ m2, w.1 = j) : ∃ w ∈ assignRows m2 sub, w.1 = j := by
  rcases h with ⟨w, hw, hwj⟩
  have h2 : j ∈ (assignRows m2 sub).map Prod.fst := by
    rw [assignRows_fst, ← hwj]
    exact List.mem_map_of_mem Prod.fst hw
  rcases List.mem_map.mp h2 with ⟨v, hv, hvj⟩
  exact ⟨v, hv, hvj⟩

/-- `tableUpdate` preserves the presence of an index. -/
theorem tableUpdate_indices_mem (m sub : Table) (j : Nat)
    (h : ∃ w ∈ m, w.1 = j) : ∃ w ∈ tableUpdate m sub, w.1 = j := by
  rcases h with ⟨w, hw, hwj⟩
  have h2 : j ∈ (tableUpdate m sub).map Prod.fst := by
    rw [tableUpdate_fst, ← hwj]
    exact List.mem_map_of_mem Prod.fst hw
  rcases List.mem_map.mp h2 with ⟨v, hv, hvj⟩
  exact ⟨v, hv, hvj⟩

/-- **C8** Unrepaired-error exclusion: a new row whose validity error is not
the duplicate string is appended to the error log with its full row content
and verbatim error message, removed from the run's row set, and rows carrying
no error index remain in the row set for the rest of the run. -/
theorem C8_unrepaired_error_exclusion (r : Remote) (ns : NoteSet)
    (hnodup : (ns.df.map Prod.fst).Nodup)
    (ns2 : NoteSet) (calls : List Call) (log : List (Nat × Row × String))
    (hcn : check_notes r ns = some (ns2, calls, log))
    (e_df : List (Nat × Row × String))
    (hfe : find_error_notes r (ns.df.filter (fun x => isNewCard x.2)) = some e_df)
    (i : Nat) (row : Row) (err : String)
    (hmem : (i, row, err) ∈ e_df) (herr : err ≠ dupError) :
    (i, row, err) ∈ log ∧
    lookupTable ns2.df i = none ∧
    (∀ x ∈ ns.df, (∀ y ∈ e_df, y.1 ≠ x.1) →
      ∃ row2, lookupTable ns2.df x.1 = some row2) := by
  unfold check_notes at hcn
  simp only [] at hcn
  rcases hre : repair_errors r (ns.df.filter (fun x => isNewCard x.2))
    with _ | ⟨df1, e2⟩ <;> rw [hre] at hcn
  · cases hcn
  · unfold repair_errors at hre
    rw [hfe] at hre
    simp only [] at hre
    rcases hrd : repair_duplicate_notes r e_df with _ | dup <;> rw [hrd] at hre
    · cases hre
    · rw [Option.some.injEq, Prod.mk.injEq] at hre
      obtain ⟨hdf1, he2⟩ := hre
      rw [repair_duplicate_notes_eq_aux] at hrd
      have hnd0 : ((ns.df.filter (fun x => isNewCard x.2)).map Prod.fst).Nodup :=
        List.Nodup.sublist (List.Sublist.map Prod.fst (List.filter_sublist ns.df)) hnodup
      have hend : (e_df.map Prod.fst).Nodup :=
        List.Nodup.sublist (find_error_notes_fst_sublist r _ e_df hfe) hnd0
      have hdupfst : dup.map Prod.fst
          = (e_df.filter (fun x => x.2.2 == dupError)).map Prod.fst :=
        repairDupAux_fst r _ dup hrd
      have hnind : ∀ z ∈ dup, z.1 ≠ i := by
        intro z hz h5
        have h6 : z.1 ∈ (e_df.filter (fun x => x.2.2 == dupError)).map Prod.fst := by
          rw [← hdupfst]
          exact List.mem_map_of_mem Prod.fst hz
        rcases List.mem_map.mp h6 with ⟨w, hw, hwz⟩
        have hw2 := List.mem_filter.mp hw
        have hweq : w = (i, row, err) :=
          fst_nodup_unique e_df hend w (i, row, err) hw2.1 hmem (by rw [hwz, h5])
        have h8 := hw2.2
        rw [hweq] at h8
        simp only [beq_iff_eq] at h8
        exact herr h8
      have hmeme2 : (i, row, err) ∈ e2 := by
        rw [← he2]
        refine List.mem_filter.mpr ⟨hmem, ?_⟩
        rw [Bool.not_eq_eq_eq_not, Bool.not_true, List.any_eq_false]
        intro z hz
        simp only [beq_iff_eq]
        exact hnind z hz
      rcases e2 with _ | ⟨y0, ys⟩
      · cases hmeme2
      · simp only [List.isEmpty_cons, Bool.false_eq_true, if_false] at hcn
        split at hcn
        · cases hcn
        · rw [Option.some.injEq, Prod.mk.injEq, Prod.mk.injEq] at hcn
          obtain ⟨hns2, _hcalls, hlog⟩ := hcn
          have hm2ne : ∀ w ∈ (tableUpdate ns.df (df1.filter
                (fun x => !((y0 :: ys).any (fun y => y.1 == x.1))))).filter
              (fun x => !((y0 :: ys).any (fun y => y.1 == x.1))), w.1 ≠ i :=
            mem_errfilter_ne _ (y0 :: ys) i row err hmeme2
          refine ⟨?_, ?_, ?_⟩
          · rw [← hlog]
            exact hmeme2
          · rw [← hns2]
            dsimp only
            split
            · exact lookupTable_eq_none _ i hm2ne
            · exact lookupTable_eq_none _ i (assignRows_indices_ne _ _ i hm2ne)
          · intro x hx hxne
            have hsubs : ∀ y ∈ (y0 :: ys), y.1 ≠ x.1 := by
              intro y hy
              apply hxne
              have h9 : y ∈ e_df.filter (fun w =>
                  !(dup.any (fun z => z.1 == w.1))) := by
                rw [he2]
                exact hy
              exact List.mem_of_mem_filter h9
            have hw1 : ∃ w ∈ tableUpdate ns.df (df1.filter
                (fun w => !((y0 :: ys).any (fun y => y.1 == w.1)))), w.1 = x.1 :=
              tableUpdate_indices_mem ns.df _ x.1 ⟨x, hx, rfl⟩
            rcases hw1 with ⟨w1, hw1m, hw1j⟩
            have hw2 : w1 ∈ (tableUpdate ns.df (df1.filter
                (fun w => !((y0 :: ys).any (fun y => y.1 == w.1))))).filter
                (fun w => !((y0 :: ys).any (fun y => y.1 == w.1))) := by
              refine List.mem_filter.mpr ⟨hw1m, ?_⟩
              rw [Bool.not_eq_eq_eq_not, Bool.not_true, List.any_eq_false]
              intro y hy
              simp only [beq_iff_eq]
              rw [hw1j]
              exact hsubs y hy
            rw [← hns2]
            dsimp only
            split
            · exact lookupTable_isSome_of_exists _ x.1 ⟨w1, hw2, hw1j⟩
            · exact lookupTable_isSome_of_exists _ x.1
                (assignRows_indices_mem _ _ x.1 ⟨w1, hw2, hw1j⟩)

/-- Witness for C8: the new row is rejected with a non-duplicate error; it
lands in the log, leaves the table, and the frontmatter and existing rows are
still processed. -/
theorem C8_unrepaired_error_exclusion_witness :
    ((1 : Nat), fxRowNew, "empty note") ∈ [((1 : Nat), fxRowNew, "empty note")] ∧
    lookupTable [(0, fxRowFm), (2, fxRowOld)] 1 = none ∧
    (∀ x ∈ fxNs.df, (∀ y ∈ [((1 : Nat), fxRowNew, "empty note")], y.1 ≠ x.1) →
      ∃ row2, lookupTable [(0, fxRowFm), (2, fxRowOld)] x.1 = some row2) :=
  C8_unrepaired_error_exclusion fxRemoteBad fxNs (by decide)
    { deckName := "D", tags := ["t"], df := [(0, fxRowFm), (2, fxRowOld)] }
    [Call.changeDeck [] "D"] [(1, fxRowNew, "empty note")] (by decide)
    [(1, fxRowNew, "empty note")] (by decide)
    1 fxRowNew "empty note" (by decide) (by decide)
